import Mathlib

/-!
Verification development for the HisniHeroj household task-management backend.

The definitions below are a shallow embedding of the core logic found in
`src/models/database.js` (scheduled assignment generation, the overdue sweeper
and the point-ledger aggregation) and in the route handlers
`src/routes/completions.js` and `src/routes/rewards.js` (the completion and
reward-claim transaction protocol).  SQL tables become lists of records, SQL
statements become pure functions over a `DB` value, and each HTTP mutation
becomes a function returning a typed result together with the post state
(errors return the unchanged input state, mirroring the rollback semantics of
the handlers).
-/

namespace HisniHeroj

/-! ## Calendar arithmetic

The scheduler SQL uses the MySQL date functions `CURDATE`, `WEEKDAY`, `WEEK`
(in its default mode 0), `YEAR` and `DATE_ADD ... DAY`.  Dates are modelled as
day numbers counted from 1970-01-01 (which was a Thursday), and the Gregorian
conversion below follows the standard civil-from-days algorithm. -/

/-- Civil date `(year, month, day)` of a day number counted from 1970-01-01. -/
def civilFromDays (z : Nat) : Nat × Nat × Nat :=
  let za := z + 719468
  let era := za / 146097
  let doe := za % 146097
  let yoe := (doe - doe / 1460 + doe / 36524 - doe / 146096) / 365
  let y := yoe + era * 400
  let doy := doe - (365 * yoe + yoe / 4 - yoe / 100)
  let mp := (5 * doy + 2) / 153
  let dd := doy - (153 * mp + 2) / 5 + 1
  let mm := if mp < 10 then mp + 3 else mp - 9
  (if mm ≤ 2 then y + 1 else y, mm, dd)

/-- Day number (counted from 1970-01-01) of a civil date. -/
def daysFromCivil (y m d : Nat) : Nat :=
  let yy := if m ≤ 2 then y - 1 else y
  let era := yy / 400
  let yoe := yy - era * 400
  let doy := (153 * (if m > 2 then m - 3 else m + 9) + 2) / 5 + d - 1
  let doe := yoe * 365 + yoe / 4 - yoe / 100 + doy
  era * 146097 + doe - 719468

/-- MySQL `YEAR(date)`. -/
def mysqlYear (z : Nat) : Nat := (civilFromDays z).1

/-- MySQL `WEEKDAY(date)`: 0 = Monday .. 6 = Sunday. -/
def mysqlWeekday (z : Nat) : Nat := (z + 3) % 7

/-- MySQL `WEEK(date)` in the default mode 0: weeks start on Sunday, week 1 is
the week containing the first Sunday of the year, and the days before that
Sunday are week 0. -/
def mysqlWeek (z : Nat) : Nat :=
  let y := mysqlYear z
  let jan1 := daysFromCivil y 1 1
  let toFirstSunday := (7 - (jan1 + 4) % 7) % 7
  let doy0 := z - jan1
  if doy0 < toFirstSunday then 0 else (doy0 - toFirstSunday) / 7 + 1

/-! ## Data model

Rows of the tables `users`, `household_members`, `tasks`, `task_cycle_users`,
`task_assignments`, `task_completions`, `rewards` and `reward_claims`.  Only
the columns consumed by the embedded logic are modelled. -/

/-- `tasks.frequency` enum column. -/
inductive Frequency
  | once
  | daily
  | weekly
  | monthly
  | yearly
deriving DecidableEq

/-- `task_assignments.status` column. -/
inductive AssignmentStatus
  | pending
  | in_progress
  | overdue
  | completed
  | cancelled
deriving DecidableEq

/-- `reward_claims.status` column. -/
inductive ClaimStatus
  | pending
  | fulfilled
  | cancelled
deriving DecidableEq

structure User where
  user_id : Nat
  is_active : Bool
deriving DecidableEq

structure Membership where
  household_id : Nat
  user_id : Nat
  role : String
  can_create_rewards : Bool
  is_active : Bool
deriving DecidableEq

structure Task where
  task_id : Nat
  household_id : Nat
  created_by : Nat
  frequency : Frequency
  is_cyclic : Bool
  is_active : Bool
  difficulty_minutes : Nat
  requires_photo : Bool
deriving DecidableEq

/-- Row of `task_cycle_users` (written by the task routes, see
`routes/tasks.js`). -/
structure CycleUser where
  task_id : Nat
  user_id : Nat
  position : Nat
deriving DecidableEq

structure Assignment where
  assignment_id : Nat
  task_id : Nat
  assigned_to : Option Nat
  assigned_by : Nat
  due_date : Nat
  status : AssignmentStatus
  is_active : Bool
  created_at : Nat
deriving DecidableEq

structure Completion where
  completion_id : Nat
  task_id : Nat
  assignment_id : Option Nat
  completed_by : Nat
  points_earned : Int
  proof_image : Option String
deriving DecidableEq

structure Reward where
  reward_id : Nat
  household_id : Nat
  title : String
  cost_points : Int
  quantity : Int
  is_active : Bool
  created_by : Nat
deriving DecidableEq

structure RewardClaim where
  claim_id : Nat
  reward_id : Nat
  claimed_by : Nat
  points_spent : Int
  status : ClaimStatus
  fulfilled_by : Option Nat
deriving DecidableEq

/-- The relational store. -/
structure DB where
  users : List User
  household_members : List Membership
  tasks : List Task
  task_cycle_users : List CycleUser
  task_assignments : List Assignment
  task_completions : List Completion
  rewards : List Reward
  reward_claims : List RewardClaim
deriving DecidableEq

/-! ## Overdue sweeper

Embeds `markOverdueAssignments` (`models/database.js` lines 215-232):

    UPDATE task_assignments SET status = 'overdue'
    WHERE status = 'pending' AND due_date < CURDATE()
-/

/-- Effect of the sweeper statement on a single row. -/
def sweepRow (today : Nat) (ta : Assignment) : Assignment :=
  if ta.status = .pending ∧ ta.due_date < today then
    { ta with status := .overdue }
  else ta

/-- One run of the hourly overdue sweeper. -/
def markOverdueAssignments (today : Nat) (db : DB) : DB :=
  { db with task_assignments := db.task_assignments.map (sweepRow today) }

theorem sweepRow_idem (today : Nat) (ta : Assignment) :
    sweepRow today (sweepRow today ta) = sweepRow today ta := by
  unfold sweepRow
  by_cases h : ta.status = .pending ∧ ta.due_date < today
  · simp [h]
  · simp [h]

theorem forall2_map_self {α : Type} {r : α → α → Prop} {f : α → α}
    (h : ∀ a, r a (f a)) : ∀ l : List α, List.Forall₂ r l (l.map f)
  | [] => List.Forall₂.nil
  | a :: l => List.Forall₂.cons (h a) (forall2_map_self h l)

theorem map_idem_of_pointwise {α : Type} {f : α → α}
    (h : ∀ a, f (f a) = f a) : ∀ l : List α, (l.map f).map f = l.map f
  | [] => rfl
  | a :: l => by simp [h a, map_idem_of_pointwise h l]

/-- C5: one run of the overdue sweeper flips to `overdue` exactly the rows that
are `pending` with a due date strictly before the current date, preserves every
other field and every other table, and a second run under the same clock is a
no-op, so it yields the same set of `overdue` rows as a single run. -/
theorem overdue_sweeper_exact_and_idempotent (today : Nat) (db : DB) :
    markOverdueAssignments today (markOverdueAssignments today db)
      = markOverdueAssignments today db
    ∧ List.Forall₂ (fun old new =>
        new.status
            = (if old.status = .pending ∧ old.due_date < today then
                AssignmentStatus.overdue
              else old.status)
          ∧ new.assignment_id = old.assignment_id
          ∧ new.task_id = old.task_id
          ∧ new.assigned_to = old.assigned_to
          ∧ new.assigned_by = old.assigned_by
          ∧ new.due_date = old.due_date
          ∧ new.is_active = old.is_active
          ∧ new.created_at = old.created_at)
        db.task_assignments (markOverdueAssignments today db).task_assignments
    ∧ (markOverdueAssignments today db).users = db.users
    ∧ (markOverdueAssignments today db).household_members = db.household_members
    ∧ (markOverdueAssignments today db).tasks = db.tasks
    ∧ (markOverdueAssignments today db).task_completions = db.task_completions
    ∧ (markOverdueAssignments today db).rewards = db.rewards
    ∧ (markOverdueAssignments today db).reward_claims = db.reward_claims
    ∧ ((markOverdueAssignments today (markOverdueAssignments today db)).task_assignments.filter
          (fun ta => decide (ta.status = .overdue)))
        = ((markOverdueAssignments today db).task_assignments.filter
          (fun ta => decide (ta.status = .overdue))) := by
  have hidem : markOverdueAssignments today (markOverdueAssignments today db)
      = markOverdueAssignments today db := by
    unfold markOverdueAssignments
    simp [map_idem_of_pointwise (sweepRow_idem today) db.task_assignments]
  refine ⟨hidem, ?_, rfl, rfl, rfl, rfl, rfl, rfl, by rw [hidem]⟩
  unfold markOverdueAssignments
  refine forall2_map_self (fun ta => ?_) db.task_assignments
  unfold sweepRow
  by_cases h : ta.status = .pending ∧ ta.due_date < today
  · simp [h]
  · simp [h]

/-! ## Point ledger

Three aggregations appear in the source:
* `calculateUserPoints` in `models/database.js` lines 284-298;
* the available-points query inside `POST /rewards/:id/claim`
  (`routes/rewards.js` lines 603-611);
* the spec's own ledger definition, kept as a separate definition for
  comparison.
-/

/-- Household of a task, through the `tasks` table. -/
def taskHousehold (db : DB) (taskId : Nat) : Option Nat :=
  (db.tasks.find? (fun t => decide (t.task_id = taskId))).map (·.household_id)

/-- Household of a reward, through the `rewards` table. -/
def rewardHousehold (db : DB) (rewardId : Nat) : Option Nat :=
  (db.rewards.find? (fun r => decide (r.reward_id = rewardId))).map (·.household_id)

/-- Ledger balance as the specification words it: the sum of `points_earned`
over all completions by the user for tasks in the household, minus the sum of
`points_spent` over all of the user's `fulfilled` claims for rewards in the
household. -/
def specAvailablePoints (db : DB) (userId householdId : Nat) : Int :=
  ((db.task_completions.filter (fun tc =>
      decide (tc.completed_by = userId
        ∧ taskHousehold db tc.task_id = some householdId))).map
    (·.points_earned)).sum
  - ((db.reward_claims.filter (fun rc =>
      decide (rc.claimed_by = userId ∧ rc.status = .fulfilled
        ∧ rewardHousehold db rc.reward_id = some householdId))).map
    (·.points_spent)).sum

/-- The user's fulfilled claims, as matched by the join condition
`rc.claimed_by = tc.completed_by AND rc.status = 'fulfilled'` (note: no
household restriction). -/
def fulfilledClaimsOf (db : DB) (userId : Nat) : List RewardClaim :=
  db.reward_claims.filter (fun rc =>
    decide (rc.claimed_by = userId ∧ rc.status = .fulfilled))

/-- The completion rows surviving the inner joins of the claim route's query:
`FROM task_completions tc ... JOIN task_assignments ta ON tc.assignment_id =
ta.assignment_id JOIN tasks t ON ta.task_id = t.task_id WHERE tc.completed_by =
? AND t.household_id = ?` (bag semantics of the relational joins). -/
def claimRouteCompletionRows (db : DB) (userId householdId : Nat) :
    List Completion :=
  db.task_completions.flatMap (fun tc =>
    if tc.completed_by = userId then
      match tc.assignment_id with
      | none => []
      | some aid =>
        (db.task_assignments.filter (fun ta =>
            decide (ta.assignment_id = aid))).flatMap (fun ta =>
          (db.tasks.filter (fun t =>
              decide (t.task_id = ta.task_id
                ∧ t.household_id = householdId))).map (fun _ => tc))
    else [])

/-- Embeds the available-points SQL of `POST /rewards/:id/claim`
(`routes/rewards.js` lines 603-611): the filtered completions are LEFT JOINed
with every fulfilled claim of the user, and the two `SUM`s range over the rows
of that product. -/
def availablePointsQuery (db : DB) (userId householdId : Nat) : Int :=
  let rows := (claimRouteCompletionRows db userId householdId).flatMap (fun tc =>
    let ms := fulfilledClaimsOf db userId
    if ms.isEmpty then [(tc.points_earned, (0 : Int))]
    else ms.map (fun rc => (tc.points_earned, rc.points_spent)))
  (rows.map (·.1)).sum - (rows.map (·.2)).sum

/-- Embeds `calculateUserPoints` (`models/database.js` lines 284-298):
`FROM users u LEFT JOIN task_completions tc ON u.user_id = tc.completed_by
LEFT JOIN reward_claims rc ON u.user_id = rc.claimed_by AND rc.status =
'fulfilled' WHERE u.user_id = ? GROUP BY u.user_id`, returning
`SUM(tc.points_earned) - SUM(rc.points_spent)` over the joined rows
(0 when the user row does not exist). -/
def calculateUserPoints (db : DB) (userId : Nat) : Int :=
  if (db.users.filter (fun u => decide (u.user_id = userId))).isEmpty then 0
  else
    let tcs := db.task_completions.filter (fun tc =>
      decide (tc.completed_by = userId))
    let rcs := fulfilledClaimsOf db userId
    let tcRows : List (Option Completion) :=
      if tcs.isEmpty then [none] else tcs.map some
    let rcRows : List (Option RewardClaim) :=
      if rcs.isEmpty then [none] else rcs.map some
    let rows := tcRows.flatMap (fun tc => rcRows.map (fun rc => (tc, rc)))
    (rows.map (fun p =>
      match p.1 with
      | some tc => tc.points_earned
      | none => (0 : Int))).sum
    - (rows.map (fun p =>
      match p.2 with
      | some rc => rc.points_spent
      | none => (0 : Int))).sum

/-! ## Rotation selector

Embeds the cyclic-assignee subquery of the assignment generators
(`models/database.js` lines 114-127 and 169-181):

    SELECT hm.user_id FROM household_members hm
    WHERE hm.household_id = t.household_id AND hm.is_active = 1
    ORDER BY (SELECT COUNT(*) FROM task_assignments ta2
              WHERE ta2.task_id = t.task_id
                AND ta2.assigned_to = hm.user_id) ASC,
             hm.user_id ASC
    LIMIT 1
-/

/-- Number of prior assignments of a task to a user. -/
def assignmentCount (db : DB) (taskId userId : Nat) : Nat :=
  (db.task_assignments.filter (fun ta =>
    decide (ta.task_id = taskId ∧ ta.assigned_to = some userId))).length

/-- User ids of the active members of a household. -/
def activeMemberIds (db : DB) (householdId : Nat) : List Nat :=
  (db.household_members.filter (fun m =>
    decide (m.household_id = householdId ∧ m.is_active = true))).map
    (·.user_id)

/-- One step of `ORDER BY key ASC LIMIT 1`: keep the accumulator unless the
candidate has a strictly smaller `(count, user_id)` key. -/
def pickStep (key : Nat → Nat × Nat) (b v : Nat) : Nat :=
  if (key v).1 < (key b).1 ∨ ((key v).1 = (key b).1 ∧ (key v).2 < (key b).2)
    then v else b

/-- First row of the candidate list under the ascending lexicographic order on
`key`, or `none` when there is no candidate (the subquery yields SQL NULL). -/
def pickMinBy (key : Nat → Nat × Nat) : List Nat → Option Nat
  | [] => none
  | u :: us => some (us.foldl (pickStep key) u)

/-- The rotation selector: least prior-assignment count first, ties broken by
ascending user id, over the household's active members. -/
def cyclicAssignee (db : DB) (t : Task) : Option Nat :=
  pickMinBy (fun uid => (assignmentCount db t.task_id uid, uid))
    (activeMemberIds db t.household_id)

/-- Non-strict lexicographic order on `(count, user_id)` keys. -/
def LexLe (a b : Nat × Nat) : Prop :=
  a.1 < b.1 ∨ (a.1 = b.1 ∧ a.2 ≤ b.2)

theorem lexLe_refl (a : Nat × Nat) : LexLe a a := Or.inr ⟨rfl, le_refl _⟩

theorem lexLe_trans {a b c : Nat × Nat} (h1 : LexLe a b) (h2 : LexLe b c) :
    LexLe a c := by
  unfold LexLe at h1 h2 ⊢
  omega

theorem lexLe_of_not_lt {a b : Nat × Nat}
    (h : ¬(a.1 < b.1 ∨ (a.1 = b.1 ∧ a.2 < b.2))) : LexLe b a := by
  unfold LexLe
  omega

theorem lexLe_of_lt {a b : Nat × Nat}
    (h : a.1 < b.1 ∨ (a.1 = b.1 ∧ a.2 < b.2)) : LexLe a b := by
  unfold LexLe
  omega

theorem foldl_pickStep_mem (key : Nat → Nat × Nat) :
    ∀ (us : List Nat) (b : Nat),
      us.foldl (pickStep key) b = b ∨ us.foldl (pickStep key) b ∈ us
  | [], _ => Or.inl rfl
  | v :: us, b => by
    have ih := foldl_pickStep_mem key us (pickStep key b v)
    simp only [List.foldl_cons]
    rcases ih with h | h
    · rw [h]
      unfold pickStep
      split
      · exact Or.inr (List.mem_cons_self v us)
      · exact Or.inl rfl
    · exact Or.inr (List.mem_cons_of_mem v h)

theorem foldl_pickStep_le (key : Nat → Nat × Nat) :
    ∀ (us : List Nat) (b : Nat),
      LexLe (key (us.foldl (pickStep key) b)) (key b)
      ∧ ∀ v ∈ us, LexLe (key (us.foldl (pickStep key) b)) (key v)
  | [], b => ⟨lexLe_refl _, by simp⟩
  | v :: us, b => by
    simp only [List.foldl_cons]
    by_cases hc : (key v).1 < (key b).1
      ∨ ((key v).1 = (key b).1 ∧ (key v).2 < (key b).2)
    · have hstep : pickStep key b v = v := by unfold pickStep; simp [hc]
      rw [hstep]
      have ih := foldl_pickStep_le key us v
      refine ⟨lexLe_trans ih.1 (lexLe_of_lt hc), ?_⟩
      intro w hw
      rcases List.mem_cons.mp hw with h | h
      · rw [h]; exact ih.1
      · exact ih.2 w h
    · have hstep : pickStep key b v = b := by unfold pickStep; simp [hc]
      rw [hstep]
      have ih := foldl_pickStep_le key us b
      refine ⟨ih.1, ?_⟩
      intro w hw
      rcases List.mem_cons.mp hw with h | h
      · rw [h]; exact lexLe_trans ih.1 (lexLe_of_not_lt hc)
      · exact ih.2 w h

theorem pickMinBy_spec (key : Nat → Nat × Nat) (l : List Nat) (h : l ≠ []) :
    ∃ u, pickMinBy key l = some u ∧ u ∈ l ∧ ∀ v ∈ l, LexLe (key u) (key v) := by
  cases l with
  | nil => exact absurd rfl h
  | cons a us =>
    refine ⟨us.foldl (pickStep key) a, rfl, ?_, ?_⟩
    · rcases foldl_pickStep_mem key us a with h | h
      · rw [h]; exact List.mem_cons_self a us
      · exact List.mem_cons_of_mem a h
    · intro v hv
      have hle := foldl_pickStep_le key us a
      rcases List.mem_cons.mp hv with h | h
      · rw [h]; exact hle.1
      · exact hle.2 v h

theorem pickMinBy_mem (key : Nat → Nat × Nat) (l : List Nat) (u : Nat)
    (h : pickMinBy key l = some u) : u ∈ l := by
  cases l with
  | nil => exact absurd h (by simp [pickMinBy])
  | cons a us =>
    have : us.foldl (pickStep key) a = u := by
      simpa [pickMinBy] using h
    rcases foldl_pickStep_mem key us a with h2 | h2
    · rw [this] at h2; rw [← h2]; exact List.mem_cons_self u us
    · rw [this] at h2; exact List.mem_cons_of_mem a h2

/-! ## Assignment generators

Embed `generateDailyAssignments` and `generateWeeklyAssignments`
(`models/database.js` lines 106-155 and 160-210).  Each run is a single
`INSERT ... SELECT` statement, so every selected task row is evaluated against
the snapshot of `task_assignments` taken before the insert. -/

/-- `ORDER BY ta_prev.created_at DESC LIMIT 1` over the assignments of a task:
the repeat-last-assignee policy of non-cyclic tasks. -/
def pickMaxByCreated : List Assignment → Option Assignment
  | [] => none
  | ta :: tas =>
    some (tas.foldl (fun b v => if b.created_at < v.created_at then v else b) ta)

/-- Assignee of the most recently created assignment of a task (SQL NULL when
the task has none, or when that row's `assigned_to` is NULL). -/
def lastAssignee (db : DB) (taskId : Nat) : Option Nat :=
  match pickMaxByCreated (db.task_assignments.filter (fun ta =>
      decide (ta.task_id = taskId))) with
  | none => none
  | some ta => ta.assigned_to

/-- The generators' `CASE WHEN t.is_cyclic = 1 THEN ... ELSE ... END`. -/
def generatorAssignee (db : DB) (t : Task) : Option Nat :=
  if t.is_cyclic then cyclicAssignee db t else lastAssignee db t.task_id

/-- Fresh `assignment_id` for an inserted row (auto-increment column). -/
def nextAssignmentId (db : DB) : Nat :=
  (db.task_assignments.map (·.assignment_id)).foldl max 0 + 1

/-- The daily guard: `EXISTS (SELECT 1 FROM task_assignments ta WHERE
ta.task_id = t.task_id AND ta.due_date = CURDATE())`. -/
def dailyGuardExists (db : DB) (taskId today : Nat) : Bool :=
  db.task_assignments.any (fun ta =>
    decide (ta.task_id = taskId ∧ ta.due_date = today))

/-- The weekly guard: `EXISTS (... WHERE ta.task_id = t.task_id AND
WEEK(ta.due_date) = WEEK(CURDATE()) AND YEAR(ta.due_date) = YEAR(CURDATE()))`. -/
def weeklyGuardExists (db : DB) (taskId today : Nat) : Bool :=
  db.task_assignments.any (fun ta =>
    decide (ta.task_id = taskId ∧ mysqlWeek ta.due_date = mysqlWeek today
      ∧ mysqlYear ta.due_date = mysqlYear today))

/-- Due date inserted by the weekly generator:
`DATE_ADD(CURDATE(), INTERVAL (7 - WEEKDAY(CURDATE())) DAY)`, i.e. the
upcoming Monday (7 days ahead when today is a Monday). -/
def weeklyDue (today : Nat) : Nat := today + (7 - mysqlWeekday today)

/-- One run of the daily generator: for every active task with frequency
`daily` whose guard finds no assignment due today, insert a pending assignment
due today, assigned by the task's creator to the generator's chosen assignee. -/
def generateDailyAssignments (today : Nat) (db : DB) : DB :=
  let selected := db.tasks.filter (fun t =>
    decide (t.frequency = .daily ∧ t.is_active = true)
      && !(dailyGuardExists db t.task_id today))
  let base := nextAssignmentId db
  let newRows := selected.enum.map (fun p =>
    { assignment_id := base + p.1
      task_id := p.2.task_id
      assigned_to := generatorAssignee db p.2
      assigned_by := p.2.created_by
      due_date := today
      status := .pending
      is_active := true
      created_at := today : Assignment })
  { db with task_assignments := db.task_assignments ++ newRows }

/-- One run of the weekly generator: like the daily one, but selecting `weekly`
tasks, inserting the upcoming Monday as due date, and guarding on the existence
of an assignment whose due date falls in the current `WEEK()`/`YEAR()`. -/
def generateWeeklyAssignments (today : Nat) (db : DB) : DB :=
  let selected := db.tasks.filter (fun t =>
    decide (t.frequency = .weekly ∧ t.is_active = true)
      && !(weeklyGuardExists db t.task_id today))
  let base := nextAssignmentId db
  let newRows := selected.enum.map (fun p =>
    { assignment_id := base + p.1
      task_id := p.2.task_id
      assigned_to := generatorAssignee db p.2
      assigned_by := p.2.created_by
      due_date := weeklyDue today
      status := .pending
      is_active := true
      created_at := today : Assignment })
  { db with task_assignments := db.task_assignments ++ newRows }

/-! ## Concrete states for the rotation claims -/

/-- Household 1 with four active members whose prior-assignment counts for
task 1 are 2, 2, 1 and 3 (users 1, 2, 3 and 4 respectively). -/
def dbRotation : DB :=
  { users := [⟨1, true⟩, ⟨2, true⟩, ⟨3, true⟩, ⟨4, true⟩]
    household_members :=
      [⟨1, 1, "owner", true, true⟩, ⟨1, 2, "member", false, true⟩,
       ⟨1, 3, "member", false, true⟩, ⟨1, 4, "member", false, true⟩]
    tasks := [⟨1, 1, 1, .daily, true, true, 20, false⟩]
    task_cycle_users := []
    task_assignments :=
      [⟨1, 1, some 1, 1, 100, .completed, true, 100⟩,
       ⟨2, 1, some 1, 1, 101, .completed, true, 101⟩,
       ⟨3, 1, some 2, 1, 102, .completed, true, 102⟩,
       ⟨4, 1, some 2, 1, 103, .completed, true, 103⟩,
       ⟨5, 1, some 3, 1, 104, .completed, true, 104⟩,
       ⟨6, 1, some 4, 1, 105, .completed, true, 105⟩,
       ⟨7, 1, some 4, 1, 106, .completed, true, 106⟩,
       ⟨8, 1, some 4, 1, 107, .completed, true, 107⟩]
    task_completions := []
    rewards := []
    reward_claims := [] }

/-- Household 1 with two active members (users 1 and 2) that are tied with one
prior assignment of task 1 each. -/
def dbRotationTie : DB :=
  { users := [⟨1, true⟩, ⟨2, true⟩]
    household_members :=
      [⟨1, 1, "owner", true, true⟩, ⟨1, 2, "member", false, true⟩]
    tasks := [⟨1, 1, 1, .daily, true, true, 20, false⟩]
    task_cycle_users := []
    task_assignments :=
      [⟨1, 1, some 1, 1, 100, .completed, true, 100⟩,
       ⟨2, 1, some 2, 1, 101, .completed, true, 101⟩]
    task_completions := []
    rewards := []
    reward_claims := [] }

/-- C2: for every cyclic task with a non-empty active membership, the rotation
selector returns an active member whose prior-assignment count for the task is
minimal, and whose user id is least among the candidates attaining that
minimal count. -/
theorem rotation_selector_min_count_tie_by_id (db : DB) (t : Task)
    (h : activeMemberIds db t.household_id ≠ []) :
    ∃ u, cyclicAssignee db t = some u
      ∧ u ∈ activeMemberIds db t.household_id
      ∧ (∀ v ∈ activeMemberIds db t.household_id,
          assignmentCount db t.task_id u ≤ assignmentCount db t.task_id v)
      ∧ (∀ v ∈ activeMemberIds db t.household_id,
          assignmentCount db t.task_id v = assignmentCount db t.task_id u →
            u ≤ v) := by
  obtain ⟨u, hpick, hmem, hle⟩ :=
    pickMinBy_spec (fun uid => (assignmentCount db t.task_id uid, uid))
      (activeMemberIds db t.household_id) h
  refine ⟨u, hpick, hmem, ?_, ?_⟩
  · intro v hv
    rcases hle v hv with h1 | ⟨h1, _⟩
    · exact le_of_lt h1
    · exact le_of_eq h1
  · intro v hv heq
    rcases hle v hv with h1 | ⟨_, h2⟩
    · omega
    · exact h2

/-- C2 witness: with prior-assignment counts `[2, 2, 1, 3]` the selector picks
user 3 (the unique count-1 member), and with the tie `[1, 1]` it picks user 1,
the lower user id. -/
theorem rotation_selector_witness :
    (activeMemberIds dbRotation 1 ≠ []
      ∧ ∃ u, cyclicAssignee dbRotation ⟨1, 1, 1, .daily, true, true, 20, false⟩
          = some u
        ∧ u ∈ activeMemberIds dbRotation 1
        ∧ (∀ v ∈ activeMemberIds dbRotation 1,
            assignmentCount dbRotation 1 u ≤ assignmentCount dbRotation 1 v)
        ∧ (∀ v ∈ activeMemberIds dbRotation 1,
            assignmentCount dbRotation 1 v = assignmentCount dbRotation 1 u →
              u ≤ v))
    ∧ cyclicAssignee dbRotation ⟨1, 1, 1, .daily, true, true, 20, false⟩
        = some 3
    ∧ assignmentCount dbRotation 1 3 = 1
    ∧ cyclicAssignee dbRotationTie ⟨1, 1, 1, .daily, true, true, 20, false⟩
        = some 1 :=
  ⟨⟨by decide,
    rotation_selector_min_count_tie_by_id dbRotation
      ⟨1, 1, 1, .daily, true, true, 20, false⟩ (by decide)⟩,
   by decide, by decide, by decide⟩

/-! ## C3: the stored cycle_users list and the generator -/

/-- State whose only cyclic task has an explicit, non-empty `cycle_users` list
`[2]`, while the household's active members are users 1 and 2 with equal
prior-assignment counts. -/
def dbCycleUsers : DB :=
  { users := [⟨1, true⟩, ⟨2, true⟩]
    household_members :=
      [⟨1, 1, "owner", true, true⟩, ⟨1, 2, "member", false, true⟩]
    tasks := [⟨1, 1, 1, .daily, true, true, 20, false⟩]
    task_cycle_users := [⟨1, 2, 0⟩]
    task_assignments := []
    task_completions := []
    rewards := []
    reward_claims := [] }

/-- C3 counterexample: task 1 has the non-empty `cycle_users` list `[2]`, yet
the rotation selector picks user 1, who is not in that list, and the daily
generator inserts the assignment for user 1 accordingly. -/
theorem cycle_users_ignored_cex :
    ((dbCycleUsers.task_cycle_users.filter (fun cu =>
        decide (cu.task_id = 1))).map (·.user_id)) = [2]
    ∧ cyclicAssignee dbCycleUsers ⟨1, 1, 1, .daily, true, true, 20, false⟩
        = some 1
    ∧ ¬ (1 ∈ ((dbCycleUsers.task_cycle_users.filter (fun cu =>
        decide (cu.task_id = 1))).map (·.user_id)))
    ∧ ((generateDailyAssignments 20094 dbCycleUsers).task_assignments.map
        (·.assigned_to)) = [some 1] := by
  decide

/-- C3 amended: the rotation selector's candidate set is always the household's
full active membership list; the stored `task_cycle_users` rows do not affect
the selection, and the selected user is always an active member. -/
theorem rotation_candidates_are_active_members (db : DB) (t : Task)
    (l : List CycleUser) :
    cyclicAssignee { db with task_cycle_users := l } t = cyclicAssignee db t
    ∧ ∀ u, cyclicAssignee db t = some u →
        u ∈ activeMemberIds db t.household_id := by
  refine ⟨rfl, ?_⟩
  intro u hu
  exact pickMinBy_mem _ _ u hu

/-- C3 amended witness: instantiated on the `cycle_users` state, replacing the
stored list by the empty one does not change the selection, and the selected
user 1 is an active member. -/
theorem rotation_candidates_witness :
    (cyclicAssignee { dbCycleUsers with task_cycle_users := [] }
        ⟨1, 1, 1, .daily, true, true, 20, false⟩
      = cyclicAssignee dbCycleUsers ⟨1, 1, 1, .daily, true, true, 20, false⟩)
    ∧ (1 ∈ activeMemberIds dbCycleUsers 1) :=
  ⟨(rotation_candidates_are_active_members dbCycleUsers
      ⟨1, 1, 1, .daily, true, true, 20, false⟩ []).1,
   (rotation_candidates_are_active_members dbCycleUsers
      ⟨1, 1, 1, .daily, true, true, 20, false⟩ []).2 1 (by decide)⟩

/-! ## C4: the double-assignment guard -/

/-- One active weekly cyclic task in household 1 with a single active member
and no assignments yet. -/
def dbWeekly : DB :=
  { users := [⟨1, true⟩]
    household_members := [⟨1, 1, "owner", true, true⟩]
    tasks := [⟨1, 1, 1, .weekly, true, true, 20, false⟩]
    task_cycle_users := []
    task_assignments := []
    task_completions := []
    rewards := []
    reward_claims := [] }

/-- C4: running the weekly generator twice on 2025-01-06 (day number 20094, a
Monday) against `dbWeekly` creates two assignments for the same task in the
same period: the inserted due date is the upcoming Monday 2025-01-13 (day
20101), which falls in the next `WEEK()` value, so the guard — which only
looks for an assignment due in the current `WEEK()`/`YEAR()` — also passes on
the second run. -/
theorem weekly_generator_double_insert :
    mysqlWeekday 20094 = 0
    ∧ weeklyDue 20094 = 20101
    ∧ mysqlWeek 20094 = 1 ∧ mysqlWeek 20101 = 2
    ∧ mysqlYear 20094 = 2025 ∧ mysqlYear 20101 = 2025
    ∧ ((generateWeeklyAssignments 20094
          (generateWeeklyAssignments 20094 dbWeekly)).task_assignments.filter
        (fun ta => decide (ta.task_id = 1))).length = 2
    ∧ ((generateWeeklyAssignments 20094
          (generateWeeklyAssignments 20094 dbWeekly)).task_assignments.map
        (·.due_date)) = [20101, 20101] := by
  decide

/-! ## C1: ledger correctness at the documented scenario -/

/-- User 1 in household 1 with three completions earning 10, 15 and 20 points
(each logged against an assignment of a household task) and one fulfilled
reward claim spending 12 points on a household reward. -/
def dbLedger : DB :=
  { users := [⟨1, true⟩]
    household_members := [⟨1, 1, "owner", true, true⟩]
    tasks :=
      [⟨1, 1, 1, .daily, false, true, 10, false⟩,
       ⟨2, 1, 1, .daily, false, true, 15, false⟩,
       ⟨3, 1, 1, .daily, false, true, 20, false⟩]
    task_cycle_users := []
    task_assignments :=
      [⟨1, 1, some 1, 1, 100, .completed, true, 100⟩,
       ⟨2, 2, some 1, 1, 100, .completed, true, 100⟩,
       ⟨3, 3, some 1, 1, 100, .completed, true, 100⟩]
    task_completions :=
      [⟨1, 1, some 1, 1, 10, none⟩,
       ⟨2, 2, some 2, 1, 15, none⟩,
       ⟨3, 3, some 3, 1, 20, none⟩]
    rewards := [⟨1, 1, "ice cream", 12, 5, true, 1⟩]
    reward_claims := [⟨1, 1, 1, 12, .fulfilled, some 1⟩] }

/-- C1: at the documented scenario (completions earning `[10, 15, 20]`, one
fulfilled claim spending 12) the ledger the specification describes is 33, but
both aggregations in the source return 9: the LEFT JOIN pairs every completion
row with every fulfilled claim, so the sums are inflated to 45 - 36. -/
theorem available_points_fanout_cex :
    specAvailablePoints dbLedger 1 1 = 33
    ∧ availablePointsQuery dbLedger 1 1 = 9
    ∧ calculateUserPoints dbLedger 1 = 9 := by
  decide

/-! ## Completion protocol

Embeds the assignment branch of `POST /completions`
(`routes/completions.js` lines 233-417). -/

inductive CompletionError
  | assignmentNotFound
  | alreadyCompleted
  | photoRequired
deriving DecidableEq

/-- The lookup of `POST /completions`: the assignment row restricted to the
acting user (`ta.assignment_id = ? AND ta.assigned_to_user_id = ? AND
ta.is_active = 1`) joined with its task. -/
def findAssignmentForUser (db : DB) (assignmentId userId : Nat) :
    Option (Assignment × Task) :=
  match db.task_assignments.find? (fun ta =>
      decide (ta.assignment_id = assignmentId ∧ ta.assigned_to = some userId
        ∧ ta.is_active = true)) with
  | none => none
  | some ta =>
    (db.tasks.find? (fun t => decide (t.task_id = ta.task_id))).map
      (fun t => (ta, t))

/-- Fresh `completion_id` (auto-increment column). -/
def nextCompletionId (db : DB) : Nat :=
  (db.task_completions.map (·.completion_id)).foldl max 0 + 1

/-- Completing a task via an assignment: resolve the assignment and its task,
reject when the assignment is already `completed` or when the task requires a
photo and none was supplied, otherwise insert a completion crediting
`difficulty_minutes` points and set the assignment's status to `completed`.
Every rejection returns the unchanged state (the handler rolls the transaction
back before any write). -/
def completeAssignment (db : DB) (userId assignmentId : Nat)
    (proofImage : Option String) : Except CompletionError Nat × DB :=
  match findAssignmentForUser db assignmentId userId with
  | none => (.error .assignmentNotFound, db)
  | some (ta, t) =>
    if ta.status = .completed then (.error .alreadyCompleted, db)
    else if t.requires_photo = true ∧ proofImage = none then
      (.error .photoRequired, db)
    else
      let cid := nextCompletionId db
      (.ok cid,
        { db with
            task_completions := db.task_completions ++
              [⟨cid, t.task_id, some assignmentId, userId,
                (t.difficulty_minutes : Int), proofImage⟩]
            task_assignments := db.task_assignments.map (fun a =>
              if a.assignment_id = assignmentId then
                { a with status := .completed }
              else a) })

/-- C6: a completion request against an assignment that is already `completed`
is rejected with the already-completed conflict and the state is returned
unchanged: no completion row is inserted and no assignment row is modified. -/
theorem completed_assignment_rejected (db : DB) (userId assignmentId : Nat)
    (proofImage : Option String) (ta : Assignment) (t : Task)
    (hfind : findAssignmentForUser db assignmentId userId = some (ta, t))
    (hdone : ta.status = .completed) :
    completeAssignment db userId assignmentId proofImage
      = (.error .alreadyCompleted, db) := by
  unfold completeAssignment
  rw [hfind]
  simp [hdone]

/-- State with one active assignment of task 1 to user 1 that is already
`completed`. -/
def dbCompleted : DB :=
  { users := [⟨1, true⟩]
    household_members := [⟨1, 1, "owner", true, true⟩]
    tasks := [⟨1, 1, 1, .daily, false, true, 20, false⟩]
    task_cycle_users := []
    task_assignments := [⟨1, 1, some 1, 1, 100, .completed, true, 100⟩]
    task_completions := []
    rewards := []
    reward_claims := [] }

/-- C6 witness: completing the already-completed assignment 1 of `dbCompleted`
is rejected and leaves the state untouched. -/
theorem completed_assignment_rejected_witness :
    completeAssignment dbCompleted 1 1 none
      = (.error .alreadyCompleted, dbCompleted) :=
  completed_assignment_rejected dbCompleted 1 1 none
    ⟨1, 1, some 1, 1, 100, .completed, true, 100⟩
    ⟨1, 1, 1, .daily, false, true, 20, false⟩ (by decide) (by decide)

/-! ## Reward claim protocol

Embeds the mutating endpoints of `routes/rewards.js`:
`POST /rewards/:id/claim` (lines 556-684), `POST /rewards/claims/:id/fulfill`
(lines 790-895), `POST /rewards/claims/:id/reject` (lines 968-993),
`DELETE /rewards/claims/:id` (lines 999-1020), `POST /rewards` (lines 246-332)
and `DELETE /rewards/:id` (lines 452-550). -/

inductive ClaimError
  | rewardNotFound
  | notAvailable
  | insufficientPoints
deriving DecidableEq

inductive ClaimActionError
  | notFound
  | accessDenied
  | insufficientPermissions
  | alreadyFulfilled
  | invalidStatus
  | permissionDenied
deriving DecidableEq

inductive RewardError
  | accessDenied
  | insufficientPermissions
  | notFound
  | hasPendingClaims
deriving DecidableEq

deriving instance DecidableEq for Except

/-- The claim route's reward lookup: `FROM rewards r JOIN household_members hm
ON r.household_id = hm.household_id WHERE r.reward_id = ? AND hm.user_id = ?
AND hm.is_active = 1 AND r.is_active = 1`. -/
def findClaimableReward (db : DB) (userId rewardId : Nat) : Option Reward :=
  match db.rewards.find? (fun r =>
      decide (r.reward_id = rewardId ∧ r.is_active = true)) with
  | none => none
  | some r =>
    if db.household_members.any (fun m =>
        decide (m.household_id = r.household_id ∧ m.user_id = userId
          ∧ m.is_active = true)) then
      some r
    else none

/-- Fresh `claim_id` (auto-increment column). -/
def nextClaimId (db : DB) : Nat :=
  (db.reward_claims.map (·.claim_id)).foldl max 0 + 1

/-- `POST /rewards/:id/claim`: resolve the reward through the requester's
membership, reject when `quantity <= 0`, reject when the route's
available-points aggregation is below `cost_points`, otherwise insert a
`pending` claim recording `points_spent = cost_points` and decrement the
reward's quantity by one.  Rejections return the unchanged state (rollback). -/
def claimReward (db : DB) (userId rewardId : Nat) :
    Except ClaimError Nat × DB :=
  match findClaimableReward db userId rewardId with
  | none => (.error .rewardNotFound, db)
  | some r =>
    if r.quantity ≤ 0 then (.error .notAvailable, db)
    else if availablePointsQuery db userId r.household_id < r.cost_points then
      (.error .insufficientPoints, db)
    else
      let cid := nextClaimId db
      (.ok cid,
        { db with
            reward_claims := db.reward_claims ++
              [⟨cid, rewardId, userId, r.cost_points, .pending, none⟩]
            rewards := db.rewards.map (fun rw =>
              if rw.reward_id = rewardId then
                { rw with quantity := rw.quantity - 1 }
              else rw) })

/-- First active membership of a user in a household (`queryOne` over
`household_members`). -/
def activeMembership (db : DB) (householdId userId : Nat) : Option Membership :=
  db.household_members.find? (fun m =>
    decide (m.household_id = householdId ∧ m.user_id = userId
      ∧ m.is_active = true))

/-- A claim joined with its reward (`FROM reward_claims rc JOIN rewards r ON
rc.reward_id = r.reward_id WHERE rc.claim_id = ?`). -/
def findClaimWithReward (db : DB) (claimId : Nat) :
    Option (RewardClaim × Reward) :=
  match db.reward_claims.find? (fun rc => decide (rc.claim_id = claimId)) with
  | none => none
  | some rc =>
    (db.rewards.find? (fun r => decide (r.reward_id = rc.reward_id))).map
      (fun r => (rc, r))

/-- `POST /rewards/claims/:id/fulfill`: requires an active membership in the
reward's household with role owner/admin or the `can_create_rewards` flag;
rejects only a claim whose status is already `fulfilled`, and otherwise sets
the status to `fulfilled` recording the fulfiller. -/
def fulfillClaim (db : DB) (userId claimId : Nat) :
    Except ClaimActionError Unit × DB :=
  match findClaimWithReward db claimId with
  | none => (.error .notFound, db)
  | some (rc, r) =>
    match activeMembership db r.household_id userId with
    | none => (.error .accessDenied, db)
    | some m =>
      if ¬ (m.role = "owner" ∨ m.role = "admin"
          ∨ m.can_create_rewards = true) then
        (.error .insufficientPermissions, db)
      else if rc.status = .fulfilled then (.error .alreadyFulfilled, db)
      else
        (.ok (),
          { db with reward_claims := db.reward_claims.map (fun c =>
              if c.claim_id = claimId then
                { c with status := .fulfilled, fulfilled_by := some userId }
              else c) })

/-- `POST /rewards/claims/:id/reject`: requires an active owner/admin
membership in the reward's household; requires the claim's status to be
`pending`, and sets it to `cancelled` recording the acting user. -/
def rejectClaim (db : DB) (userId claimId : Nat) :
    Except ClaimActionError Unit × DB :=
  match findClaimWithReward db claimId with
  | none => (.error .notFound, db)
  | some (rc, r) =>
    match activeMembership db r.household_id userId with
    | none => (.error .permissionDenied, db)
    | some m =>
      if ¬ (m.role = "owner" ∨ m.role = "admin") then
        (.error .permissionDenied, db)
      else if ¬ rc.status = .pending then (.error .invalidStatus, db)
      else
        (.ok (),
          { db with reward_claims := db.reward_claims.map (fun c =>
              if c.claim_id = claimId then
                { c with status := .cancelled, fulfilled_by := some userId }
              else c) })

/-- `DELETE /rewards/claims/:id`: the claimant deletes their own claim,
allowed only while its status is `pending`; the claim row is removed. -/
def cancelClaim (db : DB) (userId claimId : Nat) :
    Except ClaimActionError Unit × DB :=
  match db.reward_claims.find? (fun rc => decide (rc.claim_id = claimId)) with
  | none => (.error .notFound, db)
  | some rc =>
    if ¬ rc.claimed_by = userId then (.error .permissionDenied, db)
    else if ¬ rc.status = .pending then (.error .invalidStatus, db)
    else
      (.ok (),
        { db with reward_claims := db.reward_claims.filter (fun c =>
            ! decide (c.claim_id = claimId)) })

/-- Fresh `reward_id` (auto-increment column). -/
def nextRewardId (db : DB) : Nat :=
  (db.rewards.map (·.reward_id)).foldl max 0 + 1

/-- `POST /rewards`: requires an active membership with role owner/admin or
`can_create_rewards`; inserts a reward with quantity 1 (the request schema
admits no `quantity` field, so the handler's destructuring default `1` is the
only value ever inserted). -/
def createReward (db : DB) (userId householdId : Nat) (title : String)
    (cost : Int) : Except RewardError Nat × DB :=
  match activeMembership db householdId userId with
  | none => (.error .accessDenied, db)
  | some m =>
    if ¬ (m.role = "owner" ∨ m.role = "admin"
        ∨ m.can_create_rewards = true) then
      (.error .insufficientPermissions, db)
    else
      let rid := nextRewardId db
      (.ok rid,
        { db with rewards := db.rewards ++
            [⟨rid, householdId, title, cost, 1, true, userId⟩] })

/-- `DELETE /rewards/:id`: requires the reward to exist and be active, an
authorized membership, and no pending claims; soft-deletes by clearing
`is_active`. -/
def deleteReward (db : DB) (userId rewardId : Nat) :
    Except RewardError Unit × DB :=
  match db.rewards.find? (fun r =>
      decide (r.reward_id = rewardId ∧ r.is_active = true)) with
  | none => (.error .notFound, db)
  | some r =>
    match activeMembership db r.household_id userId with
    | none => (.error .accessDenied, db)
    | some m =>
      if ¬ (m.role = "owner" ∨ m.role = "admin"
          ∨ m.can_create_rewards = true) then
        (.error .insufficientPermissions, db)
      else if db.reward_claims.any (fun rc =>
          decide (rc.reward_id = rewardId ∧ rc.status = .pending)) then
        (.error .hasPendingClaims, db)
      else
        (.ok (),
          { db with rewards := db.rewards.map (fun rw =>
              if rw.reward_id = rewardId then { rw with is_active := false }
              else rw) })

/-- Quantity of a reward, looked up by id. -/
def rewardQuantity (db : DB) (rewardId : Nat) : Option Int :=
  (db.rewards.find? (fun r => decide (r.reward_id = rewardId))).map
    (·.quantity)

/-! ## C7: the insufficient-points rejection -/

/-- C7 amended: whenever the available-points aggregation computed by the
claim route is below the reward's cost (and the reward was resolved and has
positive quantity), the claim is rejected with the insufficient-points
conflict and the state — in particular the reward's quantity — is unchanged. -/
theorem insufficient_points_rejected (db : DB) (userId rewardId : Nat)
    (r : Reward) (hfind : findClaimableReward db userId rewardId = some r)
    (hq : ¬ r.quantity ≤ 0)
    (hpts : availablePointsQuery db userId r.household_id < r.cost_points) :
    claimReward db userId rewardId = (.error .insufficientPoints, db) := by
  unfold claimReward
  rw [hfind]
  simp [hq, hpts]

/-- User 1 in household 1 with a single completion earning 40 points and a
reward costing 50 with one unit in stock. -/
def dbPoorUser : DB :=
  { users := [⟨1, true⟩]
    household_members := [⟨1, 1, "owner", true, true⟩]
    tasks := [⟨1, 1, 1, .daily, false, true, 40, false⟩]
    task_cycle_users := []
    task_assignments := [⟨1, 1, some 1, 1, 100, .completed, true, 100⟩]
    task_completions := [⟨1, 1, some 1, 1, 40, none⟩]
    rewards := [⟨1, 1, "trip", 50, 1, true, 1⟩]
    reward_claims := [] }

/-- C7 witness: reward cost 50, computed balance 40, so the claim request is
rejected with the insufficient-points conflict and the quantity is unchanged. -/
theorem insufficient_points_rejected_witness :
    availablePointsQuery dbPoorUser 1 1 = 40
    ∧ claimReward dbPoorUser 1 1 = (.error .insufficientPoints, dbPoorUser) :=
  ⟨by decide,
   insufficient_points_rejected dbPoorUser 1 1 ⟨1, 1, "trip", 50, 1, true, 1⟩
     (by decide) (by decide) (by decide)⟩

/-- User 1 in household 1 whose true ledger balance is 5 (completions earning
10 and 20, fulfilled claims spending 20 and 5) while the claim route's
fan-out aggregation reports 10; the reward costs 8. -/
def dbFanout : DB :=
  { users := [⟨1, true⟩]
    household_members := [⟨1, 1, "owner", true, true⟩]
    tasks :=
      [⟨1, 1, 1, .daily, false, true, 10, false⟩,
       ⟨2, 1, 1, .daily, false, true, 20, false⟩]
    task_cycle_users := []
    task_assignments :=
      [⟨1, 1, some 1, 1, 100, .completed, true, 100⟩,
       ⟨2, 2, some 1, 1, 100, .completed, true, 100⟩]
    task_completions :=
      [⟨1, 1, some 1, 1, 10, none⟩,
       ⟨2, 2, some 2, 1, 20, none⟩]
    rewards := [⟨1, 1, "cinema", 8, 1, true, 1⟩]
    reward_claims :=
      [⟨1, 1, 1, 20, .fulfilled, some 1⟩,
       ⟨2, 1, 1, 5, .fulfilled, some 1⟩] }

/-- C7 counterexample: in `dbFanout` the actor's available points per the
ledger definition are 5, strictly below the reward's cost of 8, yet the claim
request succeeds and decrements the quantity from 1 to 0, because the route's
aggregation computes the inflated value 10. -/
theorem insufficient_points_cex :
    specAvailablePoints dbFanout 1 1 = 5
    ∧ availablePointsQuery dbFanout 1 1 = 10
    ∧ (dbFanout.rewards.map (·.cost_points)) = [8]
    ∧ (claimReward dbFanout 1 1).1 = .ok 3
    ∧ rewardQuantity dbFanout 1 = some 1
    ∧ rewardQuantity (claimReward dbFanout 1 1).2 1 = some 0 := by
  decide

/-! ## C9: the pending guard on fulfill and reject -/

/-- C9 amended: for a resolved claim and an acting owner/admin member, the
fulfill operation succeeds exactly when the claim's status is not already
`fulfilled` — so a `cancelled` claim can be fulfilled — while the reject
operation succeeds exactly when the status is currently `pending`. -/
theorem fulfill_reject_pending_guard (db : DB) (userId claimId : Nat)
    (rc : RewardClaim) (r : Reward) (m : Membership)
    (hfind : findClaimWithReward db claimId = some (rc, r))
    (hmem : activeMembership db r.household_id userId = some m)
    (hadmin : m.role = "owner" ∨ m.role = "admin") :
    ((fulfillClaim db userId claimId).1 = .ok ()
        ↔ ¬ rc.status = .fulfilled)
    ∧ ((rejectClaim db userId claimId).1 = .ok ()
        ↔ rc.status = .pending) := by
  have hperm : m.role = "owner" ∨ m.role = "admin"
      ∨ m.can_create_rewards = true := by
    rcases hadmin with h | h
    · exact Or.inl h
    · exact Or.inr (Or.inl h)
  have hcondF : (¬ (m.role = "owner" ∨ m.role = "admin"
      ∨ m.can_create_rewards = true)) = False := eq_false (not_not_intro hperm)
  have hcondR : (¬ (m.role = "owner" ∨ m.role = "admin")) = False :=
    eq_false (not_not_intro hadmin)
  constructor
  · unfold fulfillClaim
    rw [hfind]
    by_cases hs : rc.status = .fulfilled
    · simp [hmem, hcondF, hs]
    · simp [hmem, hcondF, hs]
  · unfold rejectClaim
    rw [hfind]
    by_cases hs : rc.status = .pending
    · simp [hmem, hcondR, hs]
    · simp [hmem, hcondR, hs]

/-- Household 1 with owner user 1 and member user 2; user 2's claim of
reward 1 has status `cancelled`. -/
def dbCancelled : DB :=
  { users := [⟨1, true⟩, ⟨2, true⟩]
    household_members :=
      [⟨1, 1, "owner", true, true⟩, ⟨1, 2, "member", false, true⟩]
    tasks := []
    task_cycle_users := []
    task_assignments := []
    task_completions := []
    rewards := [⟨1, 1, "cinema", 8, 1, true, 1⟩]
    reward_claims := [⟨1, 1, 2, 8, .cancelled, some 1⟩] }

/-- C9 counterexample: the only claim of `dbCancelled` has status `cancelled`,
yet the fulfill operation run by owner 1 succeeds and moves it to
`fulfilled`. -/
theorem fulfill_cancelled_cex :
    (dbCancelled.reward_claims.map (·.status)) = [.cancelled]
    ∧ (fulfillClaim dbCancelled 1 1).1 = .ok ()
    ∧ ((fulfillClaim dbCancelled 1 1).2.reward_claims.map (·.status))
        = [.fulfilled] := by
  decide

/-- C9 witness: the amended guard characterization instantiated on
`dbCancelled`: fulfilling the cancelled claim succeeds (its status is not
`fulfilled`), rejecting it fails (its status is not `pending`). -/
theorem fulfill_reject_pending_guard_witness :
    ((fulfillClaim dbCancelled 1 1).1 = .ok ()
        ↔ ¬ (ClaimStatus.cancelled = .fulfilled))
    ∧ ((rejectClaim dbCancelled 1 1).1 = .ok ()
        ↔ (ClaimStatus.cancelled = .pending)) :=
  fulfill_reject_pending_guard dbCancelled 1 1
    ⟨1, 1, 2, 8, .cancelled, some 1⟩ ⟨1, 1, "cinema", 8, 1, true, 1⟩
    ⟨1, 1, "owner", true, true⟩ (by decide) (by decide) (Or.inl rfl)

/-! ## C10: cancellation does not restore quantity -/

theorem cancelClaim_rewards_frame (db : DB) (userId claimId : Nat) :
    ((cancelClaim db userId claimId).2).rewards = db.rewards := by
  unfold cancelClaim
  repeat' split
  all_goals rfl

theorem rejectClaim_rewards_frame (db : DB) (userId claimId : Nat) :
    ((rejectClaim db userId claimId).2).rewards = db.rewards := by
  unfold rejectClaim
  repeat' split
  all_goals rfl

theorem rewardQuantity_congr (db db2 : DB) (h : db2.rewards = db.rewards)
    (rewardId : Nat) : rewardQuantity db2 rewardId = rewardQuantity db rewardId := by
  unfold rewardQuantity
  rw [h]

theorem find_decrement_map (rid : Nat) :
    ∀ l : List Reward,
      (l.map (fun rw =>
          if rw.reward_id = rid then { rw with quantity := rw.quantity - 1 }
          else rw)).find? (fun r => decide (r.reward_id = rid))
        = (l.find? (fun r => decide (r.reward_id = rid))).map
            (fun r => { r with quantity := r.quantity - 1 })
  | [] => rfl
  | r :: l => by
    by_cases h : r.reward_id = rid
    · simp [List.find?_cons, h]
    · simp [List.find?_cons, h, find_decrement_map rid l]

theorem claimReward_decrements (db : DB) (userId rewardId claimId : Nat)
    (h : (claimReward db userId rewardId).1 = .ok claimId) :
    rewardQuantity (claimReward db userId rewardId).2 rewardId
      = (rewardQuantity db rewardId).map (fun q => q - 1) := by
  unfold claimReward at h ⊢
  cases hfind : findClaimableReward db userId rewardId with
  | none =>
    rw [hfind] at h
    simp at h
  | some r =>
    rw [hfind] at h
    by_cases h1 : r.quantity ≤ 0
    · simp [h1] at h
    · by_cases h2 : availablePointsQuery db userId r.household_id
          < r.cost_points
      · simp [h1, h2] at h
      · simp only [if_neg h1, if_neg h2]
        unfold rewardQuantity
        simp only
        rw [find_decrement_map]
        cases db.rewards.find? (fun rw => decide (rw.reward_id = rewardId)) with
        | none => rfl
        | some rw => rfl

/-- C10: a successful claim decrements the reward's quantity by one, and
neither the claimant's own cancellation of the claim nor an admin's rejection
of it touches the `rewards` table, so the quantity stays at the decremented
value after either form of cancellation. -/
theorem cancelled_claim_keeps_quantity (db : DB)
    (userId rewardId claimId adminId : Nat)
    (h : (claimReward db userId rewardId).1 = .ok claimId) :
    rewardQuantity (claimReward db userId rewardId).2 rewardId
        = (rewardQuantity db rewardId).map (fun q => q - 1)
    ∧ rewardQuantity
          (cancelClaim (claimReward db userId rewardId).2 userId claimId).2
          rewardId
        = (rewardQuantity db rewardId).map (fun q => q - 1)
    ∧ rewardQuantity
          (rejectClaim (claimReward db userId rewardId).2 adminId claimId).2
          rewardId
        = (rewardQuantity db rewardId).map (fun q => q - 1) := by
  have hdec := claimReward_decrements db userId rewardId claimId h
  refine ⟨hdec, ?_, ?_⟩
  · rw [rewardQuantity_congr _ _
      (cancelClaim_rewards_frame (claimReward db userId rewardId).2 userId
        claimId) rewardId]
    exact hdec
  · rw [rewardQuantity_congr _ _
      (rejectClaim_rewards_frame (claimReward db userId rewardId).2 adminId
        claimId) rewardId]
    exact hdec

/-- Owner user 1 of household 1 with 40 earned points and a reward costing 10
with two units in stock. -/
def dbClaimFlow : DB :=
  { users := [⟨1, true⟩]
    household_members := [⟨1, 1, "owner", true, true⟩]
    tasks := [⟨1, 1, 1, .daily, false, true, 40, false⟩]
    task_cycle_users := []
    task_assignments := [⟨1, 1, some 1, 1, 100, .completed, true, 100⟩]
    task_completions := [⟨1, 1, some 1, 1, 40, none⟩]
    rewards := [⟨1, 1, "pizza", 10, 2, true, 1⟩]
    reward_claims := [] }

/-- C10 witness: in `dbClaimFlow` the claim succeeds (quantity 2 becomes 1)
and both cancellation paths leave the quantity at 1. -/
theorem cancelled_claim_keeps_quantity_witness :
    rewardQuantity (claimReward dbClaimFlow 1 1).2 1
        = (rewardQuantity dbClaimFlow 1).map (fun q => q - 1)
    ∧ rewardQuantity (cancelClaim (claimReward dbClaimFlow 1 1).2 1 1).2 1
        = (rewardQuantity dbClaimFlow 1).map (fun q => q - 1)
    ∧ rewardQuantity (rejectClaim (claimReward dbClaimFlow 1 1).2 1 1).2 1
        = (rewardQuantity dbClaimFlow 1).map (fun q => q - 1) :=
  cancelled_claim_keeps_quantity dbClaimFlow 1 1 1 1 (by decide)

/-! ## C8: the quantity invariant -/

/-- The reward operations of `routes/rewards.js` that run against stored
rewards and claims. -/
inductive RewardOp
  | create (userId householdId : Nat) (title : String) (cost : Int)
  | claim (userId rewardId : Nat)
  | fulfill (userId claimId : Nat)
  | reject (userId claimId : Nat)
  | cancel (userId claimId : Nat)
  | remove (userId rewardId : Nat)
deriving DecidableEq

/-- State reached after one reward operation (successful or rejected). -/
def applyRewardOp (db : DB) : RewardOp → DB
  | .create u h t c => (createReward db u h t c).2
  | .claim u r => (claimReward db u r).2
  | .fulfill u c => (fulfillClaim db u c).2
  | .reject u c => (rejectClaim db u c).2
  | .cancel u c => (cancelClaim db u c).2
  | .remove u r => (deleteReward db u r).2

/-- State reached after a sequence of reward operations. -/
def applyRewardOps (db : DB) (ops : List RewardOp) : DB :=
  ops.foldl applyRewardOp db

/-- Reward-table invariant: primary-key uniqueness of `reward_id` together
with non-negativity of every remaining quantity. -/
def RewardInvariant (db : DB) : Prop :=
  (db.rewards.map (·.reward_id)).Nodup ∧ ∀ r ∈ db.rewards, 0 ≤ r.quantity

theorem rewardInvariant_congr (db db2 : DB) (h : db2.rewards = db.rewards)
    (hinv : RewardInvariant db) : RewardInvariant db2 := by
  unfold RewardInvariant
  rw [h]
  exact hinv

theorem foldl_max_init_le : ∀ (l : List Nat) (a : Nat), a ≤ l.foldl max a
  | [], _ => le_refl _
  | x :: l, a => le_trans (le_max_left a x) (foldl_max_init_le l (max a x))

theorem mem_le_foldl_max : ∀ (l : List Nat) (a : Nat), ∀ x ∈ l, x ≤ l.foldl max a
  | [], _ => fun x hx => absurd hx (List.not_mem_nil x)
  | y :: l, a => fun x hx => by
    rcases List.mem_cons.mp hx with h | h
    · subst h
      exact le_trans (le_max_right a x) (foldl_max_init_le l (max a x))
    · exact mem_le_foldl_max l (max a y) x h

theorem findClaimableReward_found (db : DB) (userId rewardId : Nat) (r : Reward)
    (h : findClaimableReward db userId rewardId = some r) :
    r ∈ db.rewards ∧ r.reward_id = rewardId := by
  unfold findClaimableReward at h
  cases hf : db.rewards.find? (fun rw =>
      decide (rw.reward_id = rewardId ∧ rw.is_active = true)) with
  | none => rw [hf] at h; simp at h
  | some r0 =>
    rw [hf] at h
    dsimp only at h
    have hr : r0 = r := by
      by_cases hm : (db.household_members.any (fun m =>
          decide (m.household_id = r0.household_id ∧ m.user_id = userId
            ∧ m.is_active = true))) = true
      · rw [if_pos hm] at h
        exact Option.some.inj h
      · rw [if_neg hm] at h
        cases h
    subst hr
    have hmem := List.mem_of_find?_eq_some hf
    have hp := List.find?_some hf
    simp only [decide_eq_true_eq] at hp
    exact ⟨hmem, hp.1⟩

theorem map_reward_id_decrement (rid : Nat) :
    ∀ l : List Reward,
      ((l.map (fun rw =>
          if rw.reward_id = rid then { rw with quantity := rw.quantity - 1 }
          else rw)).map (·.reward_id)) = l.map (·.reward_id)
  | [] => rfl
  | r :: l => by
    by_cases h : r.reward_id = rid
    · simp [h, map_reward_id_decrement rid l]
    · simp [h, map_reward_id_decrement rid l]

theorem map_preserving_invariant (f : Reward → Reward)
    (hid : ∀ r, (f r).reward_id = r.reward_id)
    (hq : ∀ r, (f r).quantity = r.quantity) (l : List Reward)
    (h : (l.map (·.reward_id)).Nodup ∧ ∀ r ∈ l, 0 ≤ r.quantity) :
    ((l.map f).map (·.reward_id)).Nodup ∧ ∀ r ∈ l.map f, 0 ≤ r.quantity := by
  constructor
  · rw [List.map_map]
    have hfe : ((·.reward_id) ∘ f) = fun r : Reward => r.reward_id :=
      funext hid
    rw [hfe]
    exact h.1
  · intro r2 h2
    obtain ⟨rw, hrw, hre⟩ := List.mem_map.mp h2
    rw [← hre, hq]
    exact h.2 rw hrw

theorem create_preserves_invariant (db : DB) (userId householdId : Nat)
    (title : String) (cost : Int) (hinv : RewardInvariant db) :
    RewardInvariant (createReward db userId householdId title cost).2 := by
  unfold createReward
  cases activeMembership db householdId userId with
  | none => exact hinv
  | some m =>
    by_cases hp : ¬ (m.role = "owner" ∨ m.role = "admin"
        ∨ m.can_create_rewards = true)
    · simp only [if_pos hp]
      exact hinv
    · simp only [if_neg hp]
      constructor
      · simp only [List.map_append, List.map_cons, List.map_nil]
        rw [List.nodup_append]
        refine ⟨hinv.1, List.nodup_singleton _, ?_⟩
        intro a ha hb
        simp only [List.mem_singleton] at hb
        subst hb
        have hle := mem_le_foldl_max (db.rewards.map (·.reward_id)) 0 _ ha
        unfold nextRewardId at hle
        omega
      · intro r2 h2
        rcases List.mem_append.mp h2 with h3 | h3
        · exact hinv.2 r2 h3
        · simp only [List.mem_singleton] at h3
          subst h3
          exact zero_le_one

theorem claim_preserves_invariant (db : DB) (userId rewardId : Nat)
    (hinv : RewardInvariant db) :
    RewardInvariant (claimReward db userId rewardId).2 := by
  unfold claimReward
  cases hfind : findClaimableReward db userId rewardId with
  | none => exact hinv
  | some r =>
    by_cases h1 : r.quantity ≤ 0
    · simp only [if_pos h1]
      exact hinv
    · by_cases h2 : availablePointsQuery db userId r.household_id
          < r.cost_points
      · simp only [if_neg h1, if_pos h2]
        exact hinv
      · simp only [if_neg h1, if_neg h2]
        obtain ⟨hmem, hid⟩ := findClaimableReward_found db userId rewardId r hfind
        constructor
        · rw [map_reward_id_decrement]
          exact hinv.1
        · intro r2 h3
          obtain ⟨rw, hrw, hre⟩ := List.mem_map.mp h3
          by_cases hc : rw.reward_id = rewardId
          · have hrwr : rw = r := by
              have hinj := List.inj_on_of_nodup_map hinv.1 hrw hmem
              exact hinj (by rw [hc, hid])
            subst hrwr
            rw [← hre]
            simp only [if_pos hc]
            omega
          · rw [← hre]
            simp only [if_neg hc]
            exact hinv.2 rw hrw

theorem fulfill_preserves_invariant (db : DB) (userId claimId : Nat)
    (hinv : RewardInvariant db) :
    RewardInvariant (fulfillClaim db userId claimId).2 := by
  refine rewardInvariant_congr db _ ?_ hinv
  unfold fulfillClaim
  repeat' split
  all_goals rfl

theorem reject_preserves_invariant (db : DB) (userId claimId : Nat)
    (hinv : RewardInvariant db) :
    RewardInvariant (rejectClaim db userId claimId).2 :=
  rewardInvariant_congr db _ (rejectClaim_rewards_frame db userId claimId) hinv

theorem cancel_preserves_invariant (db : DB) (userId claimId : Nat)
    (hinv : RewardInvariant db) :
    RewardInvariant (cancelClaim db userId claimId).2 :=
  rewardInvariant_congr db _ (cancelClaim_rewards_frame db userId claimId) hinv

theorem remove_preserves_invariant (db : DB) (userId rewardId : Nat)
    (hinv : RewardInvariant db) :
    RewardInvariant (deleteReward db userId rewardId).2 := by
  unfold deleteReward
  repeat' split
  all_goals try exact hinv
  exact map_preserving_invariant
    (fun rw => if rw.reward_id = rewardId then { rw with is_active := false }
      else rw)
    (fun rw => by by_cases h : rw.reward_id = rewardId <;> simp [h])
    (fun rw => by by_cases h : rw.reward_id = rewardId <;> simp [h])
    db.rewards hinv

theorem applyRewardOp_preserves (db : DB) (op : RewardOp)
    (hinv : RewardInvariant db) : RewardInvariant (applyRewardOp db op) := by
  cases op with
  | create u h t c => exact create_preserves_invariant db u h t c hinv
  | claim u r => exact claim_preserves_invariant db u r hinv
  | fulfill u c => exact fulfill_preserves_invariant db u c hinv
  | reject u c => exact reject_preserves_invariant db u c hinv
  | cancel u c => exact cancel_preserves_invariant db u c hinv
  | remove u r => exact remove_preserves_invariant db u r hinv

/-- C8: starting from a state whose reward ids are unique and whose remaining
quantities are all non-negative, any sequence of reward operations (create,
claim, fulfill, reject, cancel, soft-delete) keeps every remaining quantity
non-negative: the quantity is decremented only by a successful claim, and a
claim against a reward with quantity at most 0 is rejected before any
mutation. -/
theorem reward_quantity_never_negative (db : DB) (ops : List RewardOp)
    (hinv : RewardInvariant db) : RewardInvariant (applyRewardOps db ops) := by
  induction ops generalizing db with
  | nil => exact hinv
  | cons op ops ih =>
    exact ih (applyRewardOp db op) (applyRewardOp_preserves db op hinv)

/-- C8 witness: a concrete operation sequence on `dbClaimFlow` — two claims of
the quantity-2 reward (the second is rejected for insufficient points), a
fulfillment, a creation, a rejected claim and a soft delete — ends with all
quantities non-negative. -/
theorem reward_quantity_never_negative_witness :
    RewardInvariant (applyRewardOps dbClaimFlow
      [.claim 1 1, .claim 1 1, .fulfill 1 1, .create 1 1 "juice" 5,
       .claim 1 2, .remove 1 1]) :=
  reward_quantity_never_negative dbClaimFlow
    [.claim 1 1, .claim 1 1, .fulfill 1 1, .create 1 1 "juice" 5,
     .claim 1 2, .remove 1 1] ⟨by decide, by decide⟩

end HisniHeroj
